import Mathlib

/-!
Verification of the plan-generation pipeline of `generate_plan.py`.

The Python module converts an untrusted JSON "Plan" (produced by an external
generator) into two Markdown documents.  We shallowly embed the JSON data
model and every pure function of the pipeline (`normalize_unknown`,
`normalize_quote`, `format_evidence_list`, the four section extractors, the
two renderers, and a pure model of `main`'s control flow).

Strings are modelled as lists of characters (`Str`), so that Python string
operations (strip, whitespace collapsing, splitting) can be defined
structurally and reasoned about with list lemmas.  Fallible Python code
(attribute errors on duck-typed access) is modelled with `Except`.
-/

namespace GenPlan

/-- Strings are modelled as lists of characters. -/
abbrev Str := List Char

/-- Embed a Lean string literal as a character list. -/
def chars (s : String) : Str := s.data

/-- Python whitespace (the ASCII part of `str.strip` / `\s`):
space, tab, newline, carriage return, vertical tab, form feed. -/
def isPySpace (c : Char) : Bool :=
  c = ' ' || c = '\t' || c = '\n' || c = '\r' || c = '\x0b' || c = '\x0c'

/-- Python `str.strip()`: drop leading and trailing whitespace. -/
def pyStrip (l : Str) : Str :=
  ((l.dropWhile isPySpace).reverse.dropWhile isPySpace).reverse

/-- Helper for `collapseWS`: `inRun` records whether the previous character
was part of a whitespace run already replaced by a single space. -/
def collapseWSAux : Bool → Str → Str
  | _, [] => []
  | inRun, c :: rest =>
    if isPySpace c then
      if inRun then collapseWSAux true rest
      else ' ' :: collapseWSAux true rest
    else c :: collapseWSAux false rest

/-- Python `re.sub(r"\s+", " ", q)`: every maximal whitespace run becomes a
single space. -/
def collapseWS (l : Str) : Str := collapseWSAux false l

/-- Helper for `pySplitWS`; `cur` is the current word accumulated in reverse. -/
def pySplitAux (cur : Str) : Str → List Str
  | [] => if cur = [] then [] else [cur.reverse]
  | c :: rest =>
    if isPySpace c then
      if cur = [] then pySplitAux [] rest
      else cur.reverse :: pySplitAux [] rest
    else pySplitAux (c :: cur) rest

/-- Python `str.split()` with no argument: split on whitespace runs,
discarding empty pieces. -/
def pySplitWS (l : Str) : List Str := pySplitAux [] l

/-- Python `str.lower()` (ASCII case folding, which covers every string the
pipeline compares against its all-ASCII synonym set). -/
def pyLower (l : Str) : Str := l.map Char.toLower

/-- Decimal digits of a natural number, exactly as Python's `str(n)`
renders them (Lean core's `Nat.toDigits`, which `Nat.repr` also uses). -/
def natStr (n : Nat) : Str := Nat.toDigits 10 n

/-- Python `str(i)` for an integer. -/
def intStr : Int → Str
  | .ofNat m => natStr m
  | .negSucc m => '-' :: natStr (m + 1)

/-- Parsed JSON values, as returned by `json.loads`: `null`, booleans,
integers, strings, arrays and objects.  (Object fields are an association
list; `json.loads` yields Python dicts, whose keys are unique.) -/
inductive JSON where
  | null
  | bool (b : Bool)
  | num (n : Int)
  | str (s : Str)
  | arr (items : List JSON)
  | obj (fields : List (String × JSON))

/-- Python truthiness of a parsed JSON value. -/
def pyTruthy : JSON → Bool
  | .null => false
  | .bool b => b
  | .num n => n ≠ 0
  | .str s => !s.isEmpty
  | .arr items => !items.isEmpty
  | .obj fields => !fields.isEmpty

/-- Python `isinstance(x, int)` on a parsed JSON value.  Python's `bool` is
a subclass of `int`, so booleans count as integers. -/
def pyIsInt : JSON → Bool
  | .num _ => true
  | .bool _ => true
  | _ => false

/-- Python `repr` of a string: quote choice (single quotes unless the string
contains a single quote but no double quote) plus escaping of backslash,
newline, carriage return, tab and the chosen quote.  This models the
printable-character common case of CPython's `repr`. -/
def reprStrEsc (q : Char) (c : Char) : Str :=
  if c = '\\' then ['\\', '\\']
  else if c = '\n' then ['\\', 'n']
  else if c = '\r' then ['\\', 'r']
  else if c = '\t' then ['\\', 't']
  else if c = q then ['\\', q]
  else [c]

/-- Python `repr` of a string (see `reprStrEsc`). -/
def reprStr (s : Str) : Str :=
  let q : Char := if s.contains '\'' && !s.contains '"' then '"' else '\''
  q :: (s.map (reprStrEsc q)).flatten ++ [q]

mutual
/-- Python `repr` of a parsed JSON value (what `str` uses for elements of
containers). -/
def pyRepr : JSON → Str
  | .null => chars "None"
  | .bool true => chars "True"
  | .bool false => chars "False"
  | .num n => intStr n
  | .str s => reprStr s
  | .arr items => '[' :: pyReprList items ++ [']']
  | .obj fields => '\x7b' :: pyReprFields fields ++ ['\x7d']

/-- Comma-separated `repr`s of the elements of a Python list. -/
def pyReprList : List JSON → Str
  | [] => []
  | [x] => pyRepr x
  | x :: y :: rest => pyRepr x ++ chars ", " ++ pyReprList (y :: rest)

/-- Comma-separated `repr(k): repr(v)` renderings of a Python dict. -/
def pyReprFields : List (String × JSON) → Str
  | [] => []
  | [(k, v)] => reprStr (chars k) ++ chars ": " ++ pyRepr v
  | (k, v) :: f :: rest =>
      reprStr (chars k) ++ chars ": " ++ pyRepr v ++ chars ", " ++
        pyReprFields (f :: rest)
end

/-- Python `str(x)` of a parsed JSON value. -/
def pyStr : JSON → Str
  | .str s => s
  | v => pyRepr v

/-- The attribute errors duck-typed access can raise at run time. -/
inductive PyErr where
  /-- `AttributeError`: `.get` on a non-dict, or `.strip()` on a non-string. -/
  | attributeError
deriving DecidableEq, Repr

/-- Python `d.get(k, default)`: raises `AttributeError` unless the receiver
is a dict. -/
def dictGetD (v : JSON) (k : String) (d : JSON) : Except PyErr JSON :=
  match v with
  | .obj fields => .ok ((fields.lookup k).getD d)
  | _ => .error .attributeError

/-- Pure dictionary lookup with default, for a field list already known to
come from an object. -/
def lookupD (fields : List (String × JSON)) (k : String) (d : JSON) : JSON :=
  (fields.lookup k).getD d

/-- The fixed synonym set of `normalize_unknown` (already lower-case). -/
def unknownSynonyms : List Str :=
  [chars "unknown", chars "n/a", chars "na", chars "not specified",
   chars "not stated"]

/-- `normalize_unknown(x)` from `generate_plan.py`: `None` maps to
`"Unknown"`; a string is stripped and maps to `"Unknown"` when empty or,
lower-cased, a member of the synonym set, otherwise to the stripped string;
any other value maps to `str(x)`. -/
def normalize_unknown (x : JSON) : Str :=
  match x with
  | .null => chars "Unknown"
  | .str s =>
      let t := pyStrip s
      if t = [] then chars "Unknown"
      else if pyLower t ∈ unknownSynonyms then chars "Unknown"
      else t
  | v => pyStr v

/-- `normalize_quote(q)` from `generate_plan.py`:
`q = (q or "").strip(); q = re.sub(r"\s+", " ", q)`, then quotes of more
than 40 words are cut to their first 40 words plus `"..."`.
`(q or "")` keeps a truthy `q` unchanged, so `.strip()` raises
`AttributeError` when `q` is a truthy non-string (e.g. a nonzero integer or
a nonempty list). -/
def normalize_quote (q : JSON) : Except PyErr Str := do
  let s : Str ←
    match (if pyTruthy q then q else .str []) with
    | .str s => Except.ok s
    | _ => Except.error .attributeError
  let t := collapseWS (pyStrip s)
  let ws := pySplitWS t
  if ws.length > 40 then
    return List.intercalate (chars " ") (ws.take 40) ++ chars "..."
  else
    return t

/-- The citation line `f"(p.{page}) \"{quote}\""` /  `f"(p.?) \"{quote}\""`
of `format_evidence_list`, given the normalized quote. -/
def evidenceLine (page : JSON) (q : Str) : Str :=
  if pyIsInt page then
    chars "(p." ++ pyStr page ++ chars ") \"" ++ q ++ chars "\""
  else
    chars "(p.?) \"" ++ q ++ chars "\""

/-- The loop body of `format_evidence_list` over the entries. -/
def formatEvidenceItems : List JSON → Except PyErr (List Str)
  | [] => .ok []
  | item :: rest =>
    match item with
    | .obj fields => do
        let page := lookupD fields "page" .null
        let quote := lookupD fields "quote" (.str [])
        let q ← normalize_quote quote
        let tail ← formatEvidenceItems rest
        if q = [] then return tail
        else return evidenceLine page q :: tail
    | _ => formatEvidenceItems rest

/-- `format_evidence_list(ev)` from `generate_plan.py`: non-list input gives
`[]`; non-dict entries are skipped; each remaining entry's quote is
normalized, empty quotes are skipped, and the rest render as
`(p.X) "quote"` (or `(p.?)` when `page` is not an integer). -/
def format_evidence_list (ev : JSON) : Except PyErr (List Str) :=
  match ev with
  | .arr items => formatEvidenceItems items
  | _ => .ok []

/-- `extract_objective_text(plan)`: `plan.get("objective", {})`, then the
normalized `text` field if the objective is a dict, else `"Unknown"`. -/
def extract_objective_text (plan : JSON) : Except PyErr Str := do
  let obj ← dictGetD plan "objective" (.obj [])
  match obj with
  | .obj fields => return normalize_unknown (lookupD fields "text" .null)
  | _ => return chars "Unknown"

/-- `extract_objective_with_evidence(plan)`: the normalized objective text
together with the formatted `objective.evidence` lines (all of them — no
count cap at this level). -/
def extract_objective_with_evidence (plan : JSON) :
    Except PyErr (Str × List Str) := do
  let obj ← dictGetD plan "objective" (.obj [])
  match obj with
  | .obj fields => do
      let text := normalize_unknown (lookupD fields "text" .null)
      let ev := lookupD fields "evidence" (.arr [])
      let lines ← format_evidence_list ev
      return (text, lines)
  | _ => return (chars "Unknown", [])

/-- The surviving item texts of `extract_list_text`'s loop: dict items whose
normalized `text` is not `"Unknown"`, in input order. -/
def listItemTexts (raw : List JSON) : List Str :=
  raw.filterMap fun it =>
    match it with
    | .obj fields =>
        let t := normalize_unknown (lookupD fields "text" .null)
        if t = chars "Unknown" then none else some t
    | _ => none

/-- The numbered rendering `"".join(f"{i}. {t}\n" for ...).strip()` of the
surviving texts (1-indexed, contiguous). -/
def numberedList (texts : List Str) : Str :=
  pyStrip (texts.enum.map (fun p =>
    natStr (p.1 + 1) ++ chars ". " ++ p.2 ++ chars "\n")).flatten

/-- `extract_list_text(plan, key)` for hypothesis/methodology: the numbered
list of surviving item texts, or `"Unknown"` when none survive (or the
section / its `items` is not of the expected shape). -/
def extract_list_text (plan : JSON) (key : String) : Except PyErr Str := do
  let sec ← dictGetD plan key (.obj [])
  let items :=
    match sec with
    | .obj fields =>
        match lookupD fields "items" (.arr []) with
        | .arr raw => listItemTexts raw
        | _ => []
    | _ => []
  if items = [] then return chars "Unknown"
  else return numberedList items

/-- `extract_page(evidence_line)`: first match of the regex
`\(p\.(\d+)\)` — the digits — or `"?"` when there is no match. -/
def pageMatchAt : Str → Option Str
  | c1 :: c2 :: c3 :: rest =>
      if c1 = '(' ∧ c2 = 'p' ∧ c3 = '.' then
        if (rest.dropWhile Char.isDigit).head? = some ')' then
          if (rest.takeWhile Char.isDigit).isEmpty then none
          else some (rest.takeWhile Char.isDigit)
        else none
      else none
  | _ => none

/-- Scan for the leftmost `\(p\.(\d+)\)` match (see `pageMatchAt`). -/
def extract_page : Str → Str
  | [] => chars "?"
  | c :: rest =>
    match pageMatchAt (c :: rest) with
    | some ds => ds
    | none => extract_page rest

/-- The internal annotation prefix of `extract_list_evidence_lines`:
`f"H{idx if key=='hypothesis' else 'M'+str(idx)} (p.{extract_page(e)}): {e}"`. -/
def annotLine (key : String) (idx : Nat) (e : Str) : Str :=
  chars "H" ++ (if key = "hypothesis" then natStr idx else 'M' :: natStr idx)
    ++ chars " (p." ++ extract_page e ++ chars "): " ++ e

/-- `ln.split(": ", 1)` scan: the suffix after the first occurrence of
`": "`, if any. -/
def sepSplitAux : Str → Option Str
  | [] => none
  | [_] => none
  | c1 :: c2 :: rest =>
    if c1 = ':' ∧ c2 = ' ' then some rest
    else sepSplitAux (c2 :: rest)

/-- `ln.split(": ", 1)[-1] if ": " in ln else ln`: strip everything up to
and including the first `": "`. -/
def stripAnnot (ln : Str) : Str := (sepSplitAux ln).getD ln

/-- The loop of `extract_list_evidence_lines` over items (`enumerate(_, 1)`),
collecting at most 2 annotated evidence lines per dict item. -/
def listEvidenceLoop (key : String) : List JSON → Nat → Except PyErr (List Str)
  | [], _ => .ok []
  | it :: rest, idx =>
    match it with
    | .obj fields => do
        let _t := normalize_unknown (lookupD fields "text" .null)
        let ev ← format_evidence_list (lookupD fields "evidence" (.arr []))
        let mine := (ev.take 2).map (annotLine key idx)
        let more ← listEvidenceLoop key rest (idx + 1)
        return mine ++ more
    | _ => listEvidenceLoop key rest (idx + 1)

/-- `extract_list_evidence_lines(plan, key)`: collect up to 2 evidence lines
per item, internally annotated with an item number, then strip the
annotation again before returning. -/
def extract_list_evidence_lines (plan : JSON) (key : String) :
    Except PyErr (List Str) := do
  let sec ← dictGetD plan key (.obj [])
  match sec with
  | .obj fields =>
      match lookupD fields "items" (.arr []) with
      | .arr raw => do
          let lines ← listEvidenceLoop key raw 1
          if lines = [] then return []
          else return lines.map stripAnnot
      | _ => return []
  | _ => return []

/-- One experiment block of `extract_experiments_text` (the item already
survived the name check). -/
def expBlock (name what_varied metric main_result : Str)
    (evLines : List Str) (include_evidence : Bool) : Str :=
  chars "### " ++ name ++ chars "\n"
    ++ chars "- What varied: " ++ what_varied ++ chars "\n"
    ++ chars "- Metric: " ++ metric ++ chars "\n"
    ++ chars "- Main result: " ++ main_result ++ chars "\n"
    ++ (if include_evidence ∧ evLines ≠ [] then
          chars "- Evidence:\n"
            ++ ((evLines.take 2).map
                  (fun e => chars "  - " ++ e ++ chars "\n")).flatten
        else [])

/-- The loop of `extract_experiments_text` over items: dict items whose
normalized `name` is not `"Unknown"` become blocks. -/
def experimentsLoop (include_evidence : Bool) :
    List JSON → Except PyErr (List Str)
  | [] => .ok []
  | it :: rest =>
    match it with
    | .obj fields => do
        let name := normalize_unknown (lookupD fields "name" .null)
        if name = chars "Unknown" then experimentsLoop include_evidence rest
        else do
          let what_varied := normalize_unknown (lookupD fields "what_varied" .null)
          let metric := normalize_unknown (lookupD fields "metric" .null)
          let main_result := normalize_unknown (lookupD fields "main_result" .null)
          let evLines ← format_evidence_list (lookupD fields "evidence" (.arr []))
          let more ← experimentsLoop include_evidence rest
          return expBlock name what_varied metric main_result evLines
              include_evidence :: more
    | _ => experimentsLoop include_evidence rest

/-- `extract_experiments_text(plan, include_evidence)`: `"Unknown"` when the
section is not a dict, `items` is not a non-empty list, or no item survives;
otherwise the blocks joined by `"\n"` and stripped. -/
def extract_experiments_text (plan : JSON) (include_evidence : Bool) :
    Except PyErr Str := do
  let sec ← dictGetD plan "experiments" (.obj [])
  match sec with
  | .obj fields =>
      match lookupD fields "items" (.arr []) with
      | .arr raw =>
          if raw.isEmpty then return chars "Unknown"
          else do
            let exps ← experimentsLoop include_evidence raw
            if exps = [] then return chars "Unknown"
            else return pyStrip (List.intercalate (chars "\n") exps)
      | _ => return chars "Unknown"
  | _ => return chars "Unknown"

/-- `render_plan_md_concise(plan)`: the four headed sections with extractor
text only. -/
def render_plan_md_concise (plan : JSON) : Except PyErr Str := do
  let obj ← extract_objective_text plan
  let hyp ← extract_list_text plan "hypothesis"
  let meth ← extract_list_text plan "methodology"
  let exps ← extract_experiments_text plan false
  return chars "# Plan\n"
    ++ chars "## Objective\n" ++ obj ++ chars "\n\n"
    ++ chars "## Hypothesis\n" ++ hyp ++ chars "\n\n"
    ++ chars "## Methodology\n" ++ meth ++ chars "\n\n"
    ++ chars "## Experiments\n" ++ exps ++ chars "\n"

/-- The optional `**Evidence**:` sub-list of the evidence renderer, emitted
only when there are evidence lines. -/
def evidenceBlock (lines : List Str) : Str :=
  if lines ≠ [] then
    chars "\n**Evidence**:\n"
      ++ (lines.map (fun ln => chars "- " ++ ln ++ chars "\n")).flatten
  else []

/-- The trailing Unknowns section body of the evidence renderer: each entry
of a non-empty `unknowns` list is normalized and listed; otherwise the
placeholder `- (none)`. -/
def unknownsBlock (unknowns : List JSON) : Str :=
  if unknowns.isEmpty then chars "- (none)\n"
  else
    (unknowns.map (fun u => chars "- " ++ normalize_unknown u ++ chars "\n")).flatten

/-- `render_plan_md_with_evidence(plan)`: the four sections with their
evidence sub-lists plus the trailing Unknowns section. -/
def render_plan_md_with_evidence (plan : JSON) : Except PyErr Str := do
  let objPair ← extract_objective_with_evidence plan
  let hyp ← extract_list_text plan "hypothesis"
  let hypEv ← extract_list_evidence_lines plan "hypothesis"
  let meth ← extract_list_text plan "methodology"
  let methEv ← extract_list_evidence_lines plan "methodology"
  let exps ← extract_experiments_text plan true
  let unknownsRaw ← dictGetD plan "unknowns" (.arr [])
  let unknowns := match unknownsRaw with | .arr us => us | _ => []
  return chars "# Plan (with evidence)\n"
    ++ chars "## Objective\n" ++ objPair.1 ++ chars "\n"
    ++ evidenceBlock objPair.2 ++ chars "\n"
    ++ chars "## Hypothesis\n" ++ hyp ++ chars "\n"
    ++ evidenceBlock hypEv ++ chars "\n"
    ++ chars "## Methodology\n" ++ meth ++ chars "\n"
    ++ evidenceBlock methEv ++ chars "\n"
    ++ chars "## Experiments\n" ++ exps ++ chars "\n"
    ++ chars "\n## Unknowns\n" ++ unknownsBlock unknowns

/-- The backquote character (the code-fence delimiter). -/
def backquote : Char := Char.ofNat 96

/-- `re.sub(r"^```[a-zA-Z]*\n", "", t)`: remove a leading code fence line.
The regex only matches when the letters run is followed by a newline. -/
def stripFenceHead (t : Str) : Str :=
  match t with
  | c1 :: c2 :: c3 :: rest =>
      if c1 = backquote ∧ c2 = backquote ∧ c3 = backquote then
        match rest.dropWhile Char.isAlpha with
        | '\n' :: after => after
        | _ => t
      else t
  | _ => t

/-- `re.sub(r"\n```$", "", t)`: remove a trailing `\n` + fence.  (`$` only
matches the very end here: the input was stripped, so it has no trailing
newline.) -/
def stripFenceTail (t : Str) : Str :=
  if t.reverse.take 4 = [backquote, backquote, backquote, '\n'] then
    (t.reverse.drop 4).reverse
  else t

/-- `parse_json_strict(text)`: strip, remove surrounding code fences when
the text starts with one, and parse.  `json.loads` is Python's standard
library (an external collaborator for this embedding) and is passed in as
the oracle `jsonLoads`; `none` models a raised `JSONDecodeError`. -/
def parse_json_strict (jsonLoads : Str → Option JSON) (text : Str) :
    Option JSON :=
  let t := pyStrip text
  let t :=
    if t.take 3 = [backquote, backquote, backquote] then
      pyStrip (stripFenceTail (stripFenceHead t))
    else t
  jsonLoads t

/-- The fatal outcomes of `main`. -/
inductive MainErr where
  /-- `SystemExit`: the input PDF does not exist (raised before anything else). -/
  | missingInput
  /-- `RuntimeError` from `run_claude` (non-zero exit of the collaborator),
  never caught. -/
  | claudeFailed
  /-- The repaired response still failed to parse (the second parse failure,
  raised out of the `except` block). -/
  | parseFailed
  /-- An `AttributeError` escaping one of the renderers. -/
  | renderError (e : PyErr)
deriving DecidableEq, Repr

/-- Rendering and writing phase of `main`: both documents are rendered (in
source order) before any file is opened, and on success both files are
written.  The result list holds the written files in write order. -/
def renderAndWrite (plan : JSON) : Except MainErr (List (String × Str)) :=
  match render_plan_md_concise plan with
  | .error e => .error (.renderError e)
  | .ok planMd =>
    match render_plan_md_with_evidence plan with
    | .error e => .error (.renderError e)
    | .ok planEvMd =>
        .ok [("plan.md", planMd), ("plan_with_evidence.md", planEvMd)]

/-- Control-flow model of `main`: the external generator is an oracle
(`resp1` for the first invocation, `resp2` for the repair invocation, with
`Except.error` modelling a `run_claude` failure), and `jsonLoads` is the
JSON-parsing oracle.  The first component counts generator invocations; the
second is the run's outcome — fatal error, or the files written. -/
def mainModel (fileExists : Bool) (resp1 resp2 : Except Unit Str)
    (jsonLoads : Str → Option JSON) :
    Nat × Except MainErr (List (String × Str)) :=
  if !fileExists then (0, .error .missingInput)
  else
    match resp1 with
    | .error _ => (1, .error .claudeFailed)
    | .ok out1 =>
      match parse_json_strict jsonLoads out1 with
      | some plan => (1, renderAndWrite plan)
      | none =>
        match resp2 with
        | .error _ => (2, .error .claudeFailed)
        | .ok out2 =>
          match parse_json_strict jsonLoads out2 with
          | some plan => (2, renderAndWrite plan)
          | none => (2, .error .parseFailed)

/-! ## Specification-shaped definitions

The following definitions restate, in the words of the specification, what
the extractors are claimed to compute.  The claim theorems below compare
them with the embedded source functions. -/

/-- A quote value on which `normalize_quote` does not raise: a string, or a
falsy value (which `(q or "")` replaces by the empty string). -/
def quoteOkB (q : JSON) : Bool :=
  match q with
  | .str _ => true
  | _ => !pyTruthy q

/-- The string `(q or "")` denotes for a `quoteOkB` value. -/
def quoteStrOf (q : JSON) : Str :=
  match q with
  | .str s => s
  | _ => []

/-- Modelled from the spec: the quote normalization of §4.2 — whitespace
runs collapsed to single spaces, trimmed, and quotes of more than 40 words
cut to their first 40 words plus `"..."`. -/
def nqSpec (q : JSON) : Str :=
  let t := collapseWS (pyStrip (quoteStrOf q))
  let ws := pySplitWS t
  if ws.length > 40 then
    List.intercalate (chars " ") (ws.take 40) ++ chars "..."
  else t

/-- Modelled from the spec: the citation line one evidence entry yields —
`none` for non-mapping entries and for entries whose quote normalizes to
empty; otherwise `(p.<page>) "<quote>"` with `(p.?)` for a non-integer
page. -/
def entryLineSpec (it : JSON) : Option Str :=
  match it with
  | .obj fields =>
      let q := nqSpec (lookupD fields "quote" (.str []))
      if q = [] then none
      else some (evidenceLine (lookupD fields "page" .null) q)
  | _ => none

/-- Modelled from the spec: the evidence formatter of §4.2 — empty on
non-list input, otherwise the surviving entries' citation lines in input
order, with no deduplication. -/
def formatSpec (ev : JSON) : List Str :=
  match ev with
  | .arr items => items.filterMap entryLineSpec
  | _ => []

/-- All quote fields of an evidence value are `quoteOkB` (so the formatter
does not raise on it). -/
def evOkB (ev : JSON) : Bool :=
  match ev with
  | .arr items =>
      items.all fun it =>
        match it with
        | .obj fields => quoteOkB (lookupD fields "quote" (.str []))
        | _ => true
  | _ => true

/-- The normalized objective text a Plan object carries. -/
def objTextSpec (fields : List (String × JSON)) : Str :=
  match lookupD fields "objective" (.obj []) with
  | .obj ofs => normalize_unknown (lookupD ofs "text" .null)
  | _ => chars "Unknown"

/-- The `objective.evidence` value of a Plan object (`[]` when absent or
when the objective is not a mapping). -/
def objEvidenceOf (fields : List (String × JSON)) : JSON :=
  match lookupD fields "objective" (.obj []) with
  | .obj ofs => lookupD ofs "evidence" (.arr [])
  | _ => .arr []

/-- The raw `<key>.items` list of a Plan object (`[]` on any shape
mismatch). -/
def sectionItemsOf (fields : List (String × JSON)) (key : String) :
    List JSON :=
  match lookupD fields key (.obj []) with
  | .obj sfs =>
      match lookupD sfs "items" (.arr []) with
      | .arr raw => raw
      | _ => []
  | _ => []

/-- The `evidence` value of one item (`[]` for non-mapping items). -/
def itemEvidenceOf (it : JSON) : JSON :=
  match it with
  | .obj ifs => lookupD ifs "evidence" (.arr [])
  | _ => .arr []

/-- The evidence of an item is safe for the formatter. -/
def itemEvOkB (it : JSON) : Bool := evOkB (itemEvidenceOf it)

/-- Modelled from the spec: the hypothesis/methodology section text of
§4.3 — the numbered list of surviving item texts, `"Unknown"` when none
survive. -/
def listTextSpec (fields : List (String × JSON)) (key : String) : Str :=
  let ts := listItemTexts (sectionItemsOf fields key)
  if ts = [] then chars "Unknown" else numberedList ts

/-- Modelled from the spec: the evidence lines of a list section — per item,
the first 2 of its formatted evidence lines, concatenated across items in
order, with no annotation prefix. -/
def evLinesSpecItems (items : List JSON) : List Str :=
  (items.map fun it => (formatSpec (itemEvidenceOf it)).take 2).flatten

/-- `evLinesSpecItems` applied to a Plan object's section. -/
def evLinesSpec (fields : List (String × JSON)) (key : String) : List Str :=
  evLinesSpecItems (sectionItemsOf fields key)

/-- Modelled from the spec: the blocks of the experiments section — one
block per item whose normalized `name` is not `"Unknown"`, carrying the
three normalized fields and (when requested) up to 2 evidence lines. -/
def expSurviving (raw : List JSON) (include_evidence : Bool) : List Str :=
  raw.filterMap fun it =>
    match it with
    | .obj fields =>
        let name := normalize_unknown (lookupD fields "name" .null)
        if name = chars "Unknown" then none
        else
          some (expBlock name
            (normalize_unknown (lookupD fields "what_varied" .null))
            (normalize_unknown (lookupD fields "metric" .null))
            (normalize_unknown (lookupD fields "main_result" .null))
            (formatSpec (lookupD fields "evidence" (.arr [])))
            include_evidence)
    | _ => none

/-- Modelled from the spec: the experiments section text of §4.3 —
`"Unknown"` when the section is not a mapping, `items` is not a non-empty
list (`sectionItemsOf` is `[]` in both cases), or no item survives the name
check; otherwise the surviving blocks joined by a blank separator line. -/
def expSpecText (fields : List (String × JSON)) (include_evidence : Bool) :
    Str :=
  let raw := sectionItemsOf fields "experiments"
  if raw.isEmpty then chars "Unknown"
  else
    let blocks := expSurviving raw include_evidence
    if blocks = [] then chars "Unknown"
    else pyStrip (List.intercalate (chars "\n") blocks)

/-- The `unknowns` entries of a Plan object (`[]` for non-list values). -/
def unknownsOf (fields : List (String × JSON)) : List JSON :=
  match lookupD fields "unknowns" (.arr []) with
  | .arr us => us
  | _ => []

/-- Every evidence value the extractors format on a Plan object is safe for
`normalize_quote` (no truthy non-string quote anywhere the pipeline
looks). -/
def planSafe (fields : List (String × JSON)) : Bool :=
  evOkB (objEvidenceOf fields)
    && (sectionItemsOf fields "hypothesis").all itemEvOkB
    && (sectionItemsOf fields "methodology").all itemEvOkB
    && (sectionItemsOf fields "experiments").all itemEvOkB

/-! ## Helper lemmas: the source functions compute the spec-shaped values -/

theorem bind_ok {ε α β : Type} (a : α) (f : α → Except ε β) :
    (Except.ok a >>= f : Except ε β) = f a := rfl

theorem pure_eq_ok {ε α : Type} (a : α) : (pure a : Except ε α) = .ok a := rfl

theorem normalize_quote_str (s : Str) :
    normalize_quote (.str s) = .ok (nqSpec (.str s)) := by
  have hor : (if pyTruthy (.str s) = true then JSON.str s else .str [])
      = .str s := by cases s <;> rfl
  unfold normalize_quote
  rw [hor]
  simp only [nqSpec, quoteStrOf, bind_ok]
  split <;> rfl

theorem normalize_quote_ok (q : JSON) (h : quoteOkB q = true) :
    normalize_quote q = .ok (nqSpec q) := by
  cases q with
  | null => rfl
  | str s => exact normalize_quote_str s
  | bool b =>
      cases b with
      | false => rfl
      | true => simp [quoteOkB, pyTruthy] at h
  | num n =>
      by_cases hn : n = 0
      · subst hn; rfl
      · simp [quoteOkB, pyTruthy, hn] at h
  | arr items =>
      cases items with
      | nil => rfl
      | cons a as => simp [quoteOkB, pyTruthy] at h
  | obj fields =>
      cases fields with
      | nil => rfl
      | cons a as => simp [quoteOkB, pyTruthy] at h

theorem formatEvidenceItems_ok (items : List JSON)
    (h : ∀ it ∈ items,
      (match it with
       | .obj fields => quoteOkB (lookupD fields "quote" (.str []))
       | _ => true) = true) :
    formatEvidenceItems items = .ok (items.filterMap entryLineSpec) := by
  induction items with
  | nil => rfl
  | cons it rest ih =>
      have hit := h it (by simp)
      have hrest := ih fun x hx => h x (by simp [hx])
      cases it with
      | obj fields =>
          simp only [formatEvidenceItems, normalize_quote_ok _ hit, hrest,
            List.filterMap_cons, entryLineSpec, bind_ok]
          split <;> rfl
      | null => simpa [formatEvidenceItems, List.filterMap_cons, entryLineSpec]
          using hrest
      | bool b => simpa [formatEvidenceItems, List.filterMap_cons, entryLineSpec]
          using hrest
      | num n => simpa [formatEvidenceItems, List.filterMap_cons, entryLineSpec]
          using hrest
      | str s => simpa [formatEvidenceItems, List.filterMap_cons, entryLineSpec]
          using hrest
      | arr xs => simpa [formatEvidenceItems, List.filterMap_cons, entryLineSpec]
          using hrest

theorem format_evidence_list_ok (ev : JSON) (h : evOkB ev = true) :
    format_evidence_list ev = .ok (formatSpec ev) := by
  cases ev with
  | arr items =>
      simp only [evOkB, List.all_eq_true] at h
      exact formatEvidenceItems_ok items fun it hit => by
        have := h it hit
        cases it <;> simpa using this
  | null => rfl
  | bool b => rfl
  | num n => rfl
  | str s => rfl
  | obj fields => rfl

theorem dictGetD_obj (fs : List (String × JSON)) (k : String) (d : JSON) :
    dictGetD (.obj fs) k d = .ok (lookupD fs k d) := rfl

theorem extract_objective_text_eq (fs : List (String × JSON)) :
    extract_objective_text (.obj fs) = .ok (objTextSpec fs) := by
  unfold extract_objective_text objTextSpec
  simp only [dictGetD_obj, bind_ok]
  cases lookupD fs "objective" (.obj []) <;> rfl

theorem extract_objective_with_evidence_eq (fs : List (String × JSON))
    (h : evOkB (objEvidenceOf fs) = true) :
    extract_objective_with_evidence (.obj fs)
      = .ok (objTextSpec fs, formatSpec (objEvidenceOf fs)) := by
  unfold objEvidenceOf at h
  unfold extract_objective_with_evidence objTextSpec objEvidenceOf
  simp only [dictGetD_obj, bind_ok]
  cases hobj : lookupD fs "objective" (.obj []) with
  | obj ofs =>
      rw [hobj] at h
      simp only at h
      simp only [format_evidence_list_ok _ h, bind_ok]
      rfl
  | null => rfl
  | bool b => rfl
  | num n => rfl
  | str s => rfl
  | arr xs => rfl

theorem extract_list_text_eq (fs : List (String × JSON)) (key : String) :
    extract_list_text (.obj fs) key = .ok (listTextSpec fs key) := by
  unfold extract_list_text listTextSpec sectionItemsOf
  simp only [dictGetD_obj, bind_ok]
  cases lookupD fs key (.obj []) with
  | obj sfs =>
      simp only []
      cases lookupD sfs "items" (.arr []) with
      | arr raw => split <;> rfl
      | null => rfl
      | bool b => rfl
      | num n => rfl
      | str s => rfl
      | obj o => rfl
  | null => rfl
  | bool b => rfl
  | num n => rfl
  | str s => rfl
  | arr xs => rfl

theorem experimentsLoop_ok (include_evidence : Bool) (raw : List JSON)
    (h : ∀ it ∈ raw, itemEvOkB it = true) :
    experimentsLoop include_evidence raw
      = .ok (expSurviving raw include_evidence) := by
  induction raw with
  | nil => rfl
  | cons it rest ih =>
      have hrest := ih fun x hx => h x (by simp [hx])
      cases it with
      | obj fields =>
          have hit : evOkB (lookupD fields "evidence" (.arr [])) = true := by
            simpa [itemEvOkB, itemEvidenceOf] using h (.obj fields) (by simp)
          simp only [experimentsLoop, expSurviving, List.filterMap_cons]
          split
          · simpa [expSurviving] using hrest
          · simp only [format_evidence_list_ok _ hit, bind_ok, hrest,
              expSurviving]
            rfl
      | null => simpa [experimentsLoop, expSurviving, List.filterMap_cons]
          using hrest
      | bool b => simpa [experimentsLoop, expSurviving, List.filterMap_cons]
          using hrest
      | num n => simpa [experimentsLoop, expSurviving, List.filterMap_cons]
          using hrest
      | str s => simpa [experimentsLoop, expSurviving, List.filterMap_cons]
          using hrest
      | arr xs => simpa [experimentsLoop, expSurviving, List.filterMap_cons]
          using hrest

theorem extract_experiments_text_shape (fs : List (String × JSON))
    (include_evidence : Bool) :
    extract_experiments_text (.obj fs) include_evidence
      = (if (sectionItemsOf fs "experiments").isEmpty then
            .ok (chars "Unknown")
         else do
            let exps ← experimentsLoop include_evidence
              (sectionItemsOf fs "experiments")
            if exps = [] then .ok (chars "Unknown")
            else .ok (pyStrip (List.intercalate (chars "\n") exps))) := by
  unfold extract_experiments_text sectionItemsOf
  simp only [dictGetD_obj, bind_ok]
  cases lookupD fs "experiments" (.obj []) with
  | obj sfs =>
      simp only []
      cases lookupD sfs "items" (.arr []) with
      | arr raw => rfl
      | null => rfl
      | bool b => rfl
      | num n => rfl
      | str s => rfl
      | obj o => rfl
  | null => rfl
  | bool b => rfl
  | num n => rfl
  | str s => rfl
  | arr xs => rfl

theorem extract_experiments_text_eq (fs : List (String × JSON))
    (include_evidence : Bool)
    (h : ∀ it ∈ sectionItemsOf fs "experiments", itemEvOkB it = true) :
    extract_experiments_text (.obj fs) include_evidence
      = .ok (expSpecText fs include_evidence) := by
  rw [extract_experiments_text_shape]
  unfold expSpecText
  by_cases hraw : (sectionItemsOf fs "experiments").isEmpty
  · simp [hraw]
  · have hne : ¬ ((sectionItemsOf fs "experiments").isEmpty = true) := by
      simp [hraw]
    rw [if_neg hne, if_neg hne,
      experimentsLoop_ok include_evidence _ h, bind_ok]
    split
    · next hexps => simp [hexps]
    · next hexps => simp [hexps]

/-! ### Decimal digits contain no colon (for the annotation-strip proof) -/

theorem digitChar_isDigit {m : Nat} (h : m < 10) :
    (Nat.digitChar m).isDigit = true := by
  interval_cases m <;> rfl

theorem toDigitsCore_digits (fuel : Nat) :
    ∀ (n : Nat) (ds : List Char), (∀ c ∈ ds, c.isDigit = true) →
      ∀ c ∈ Nat.toDigitsCore 10 fuel n ds, c.isDigit = true := by
  induction fuel with
  | zero =>
      intro n ds h c hc
      rw [Nat.toDigitsCore] at hc
      exact h c hc
  | succ f ih =>
      intro n ds h c hc
      rw [Nat.toDigitsCore] at hc
      have hd : ∀ c ∈ Nat.digitChar (n % 10) :: ds, c.isDigit = true := by
        intro c hc
        rcases List.mem_cons.mp hc with hc | hc
        · subst hc; exact digitChar_isDigit (Nat.mod_lt _ (by norm_num))
        · exact h c hc
      by_cases h10 : n / 10 = 0
      · simp only [h10, if_pos] at hc
        exact hd c (by simpa using hc)
      · simp only [h10, if_neg, if_false] at hc
        exact ih (n / 10) _ hd c hc

theorem natStr_digits (n : Nat) : ∀ c ∈ natStr n, c.isDigit = true := by
  unfold natStr Nat.toDigits
  exact toDigitsCore_digits _ _ _ (by simp)

theorem isDigit_ne_colon {c : Char} (h : c.isDigit = true) : c ≠ ':' := by
  intro hc
  subst hc
  exact absurd h (by decide)

theorem pageMatchAt_digits (l ds : Str) (h : pageMatchAt l = some ds) :
    ∀ c ∈ ds, c.isDigit = true := by
  unfold pageMatchAt at h
  split at h
  · split at h
    · split at h
      · split at h
        · exact absurd h (by simp)
        · intro c hc
          cases h
          exact List.mem_takeWhile_imp hc
      · exact absurd h (by simp)
    · exact absurd h (by simp)
  · exact absurd h (by simp)

theorem extract_page_no_colon (e : Str) : ∀ c ∈ extract_page e, c ≠ ':' := by
  induction e with
  | nil =>
      intro c hc
      simp only [extract_page, chars] at hc
      simp at hc
      subst hc
      decide
  | cons a rest ih =>
      intro c hc
      rw [extract_page] at hc
      cases hm : pageMatchAt (a :: rest) with
      | some ds =>
          rw [hm] at hc
          exact isDigit_ne_colon (pageMatchAt_digits _ _ hm c hc)
      | none =>
          rw [hm] at hc
          exact ih c hc

/-! ### `stripAnnot` undoes `annotLine` -/

theorem sepSplitAux_append (xs e : Str) (h : ∀ c ∈ xs, c ≠ ':') :
    sepSplitAux (xs ++ ':' :: ' ' :: e) = some e := by
  induction xs with
  | nil => rfl
  | cons x xs ih =>
      have hx : x ≠ ':' := h x (by simp)
      have hxs : ∀ c ∈ xs, c ≠ ':' := fun c hc => h c (by simp [hc])
      cases xs with
      | nil =>
          simp only [List.nil_append, List.cons_append, sepSplitAux]
          rw [if_neg (by simp [hx])]
          rfl
      | cons y ys =>
          simp only [List.cons_append, sepSplitAux]
          rw [if_neg (by simp [hx])]
          exact ih hxs

theorem stripAnnot_annotLine (key : String) (idx : Nat) (e : Str) :
    stripAnnot (annotLine key idx e) = e := by
  unfold stripAnnot annotLine
  have hform :
      chars "H" ++ (if key = "hypothesis" then natStr idx else 'M' :: natStr idx)
          ++ chars " (p." ++ extract_page e ++ chars "): " ++ e
        = ('H' :: ((if key = "hypothesis" then natStr idx
              else 'M' :: natStr idx)
            ++ chars " (p." ++ extract_page e ++ [')']))
          ++ ':' :: ' ' :: e := by
    simp [chars, List.append_assoc]
  rw [hform, sepSplitAux_append]
  · rfl
  · intro c hc
    simp only [List.mem_cons, List.mem_append] at hc
    rcases hc with hc | ⟨⟨hc | hc⟩ | hc⟩ | hc
    · subst hc; decide
    · split at hc
      · exact isDigit_ne_colon (natStr_digits idx c hc)
      · rcases List.mem_cons.mp hc with hc | hc
        · subst hc; decide
        · exact isDigit_ne_colon (natStr_digits idx c hc)
    · have h4 : chars " (p." = [' ', '(', 'p', '.'] := rfl
      rw [h4] at hc
      fin_cases hc <;> decide
    · exact extract_page_no_colon e c hc
    · rcases hc with hc | hc
      · subst hc; decide
      · simp at hc

theorem map_stripAnnot_map_annotLine (key : String) (idx : Nat)
    (l : List Str) :
    (l.map (annotLine key idx)).map stripAnnot = l := by
  rw [List.map_map]
  exact List.map_id'' (fun e => stripAnnot_annotLine key idx e) l

theorem listEvidenceLoop_ok (key : String) (raw : List JSON) :
    ∀ idx, (∀ it ∈ raw, itemEvOkB it = true) →
    ∃ ls, listEvidenceLoop key raw idx = .ok ls
      ∧ ls.map stripAnnot = evLinesSpecItems raw := by
  induction raw with
  | nil => exact fun idx h => ⟨[], rfl, rfl⟩
  | cons it rest ih =>
      intro idx h
      obtain ⟨ls, hls, hmap⟩ := ih (idx + 1) (fun x hx => h x (by simp [hx]))
      cases it with
      | obj fields =>
          have hit : evOkB (lookupD fields "evidence" (.arr [])) = true := by
            simpa [itemEvOkB, itemEvidenceOf] using h (.obj fields) (by simp)
          refine ⟨((formatSpec (lookupD fields "evidence" (.arr []))).take 2).map
              (annotLine key idx) ++ ls, ?_, ?_⟩
          · simp only [listEvidenceLoop, format_evidence_list_ok _ hit,
              bind_ok, hls]
            rfl
          · simp only [List.map_append, map_stripAnnot_map_annotLine, hmap,
              evLinesSpecItems, List.map_cons, List.flatten_cons,
              itemEvidenceOf]
      | null =>
          exact ⟨ls, hls, by
            simp [hmap, evLinesSpecItems, itemEvidenceOf, formatSpec]⟩
      | bool b =>
          exact ⟨ls, hls, by
            simp [hmap, evLinesSpecItems, itemEvidenceOf, formatSpec]⟩
      | num n =>
          exact ⟨ls, hls, by
            simp [hmap, evLinesSpecItems, itemEvidenceOf, formatSpec]⟩
      | str s =>
          exact ⟨ls, hls, by
            simp [hmap, evLinesSpecItems, itemEvidenceOf, formatSpec]⟩
      | arr xs =>
          exact ⟨ls, hls, by
            simp [hmap, evLinesSpecItems, itemEvidenceOf, formatSpec]⟩

theorem extract_list_evidence_lines_shape (fs : List (String × JSON))
    (key : String) :
    extract_list_evidence_lines (.obj fs) key =
      (do
        let lines ← listEvidenceLoop key (sectionItemsOf fs key) 1
        if lines = [] then pure [] else pure (lines.map stripAnnot)) := by
  unfold extract_list_evidence_lines sectionItemsOf
  simp only [dictGetD_obj, bind_ok]
  cases lookupD fs key (.obj []) with
  | obj sfs =>
      simp only []
      cases lookupD sfs "items" (.arr []) with
      | arr raw => rfl
      | null => rfl
      | bool b => rfl
      | num n => rfl
      | str s => rfl
      | obj o => rfl
  | null => rfl
  | bool b => rfl
  | num n => rfl
  | str s => rfl
  | arr xs => rfl

theorem extract_list_evidence_lines_eq (fs : List (String × JSON))
    (key : String)
    (h : ∀ it ∈ sectionItemsOf fs key, itemEvOkB it = true) :
    extract_list_evidence_lines (.obj fs) key = .ok (evLinesSpec fs key) := by
  rw [extract_list_evidence_lines_shape]
  obtain ⟨ls, hls, hmap⟩ := listEvidenceLoop_ok key (sectionItemsOf fs key) 1 h
  rw [hls, bind_ok]
  unfold evLinesSpec
  by_cases hnil : ls = []
  · subst hnil
    rw [if_pos rfl, ← hmap]
    rfl
  · rw [if_neg hnil, hmap]
    rfl

/-! ## Renderer structure -/

/-- The segments of the concise document: the full text is every segment
followed by one newline, concatenated. -/
def conciseSegs (obj hyp meth exps : Str) : List Str :=
  [chars "# Plan", chars "## Objective", obj, [],
   chars "## Hypothesis", hyp, [],
   chars "## Methodology", meth, [],
   chars "## Experiments", exps]

/-- The concise document as a function of the four extracted texts. -/
def conciseDoc (obj hyp meth exps : Str) : Str :=
  ((conciseSegs obj hyp meth exps).map (fun s => s ++ ['\n'])).flatten

theorem conciseDoc_unfold (obj hyp meth exps : Str) :
    conciseDoc obj hyp meth exps
      = chars "# Plan\n" ++ chars "## Objective\n" ++ obj ++ chars "\n\n"
        ++ chars "## Hypothesis\n" ++ hyp ++ chars "\n\n"
        ++ chars "## Methodology\n" ++ meth ++ chars "\n\n"
        ++ chars "## Experiments\n" ++ exps ++ chars "\n" := by
  simp [conciseDoc, conciseSegs, chars, List.append_assoc]

theorem render_plan_md_concise_eq (fs : List (String × JSON))
    (h : ∀ it ∈ sectionItemsOf fs "experiments", itemEvOkB it = true) :
    render_plan_md_concise (.obj fs)
      = .ok (conciseDoc (objTextSpec fs) (listTextSpec fs "hypothesis")
          (listTextSpec fs "methodology") (expSpecText fs false)) := by
  unfold render_plan_md_concise
  rw [extract_objective_text_eq, bind_ok, extract_list_text_eq, bind_ok,
    extract_list_text_eq, bind_ok, extract_experiments_text_eq fs false h,
    bind_ok, conciseDoc_unfold]
  rfl

/-- The evidence document as a function of a Plan object, in the shape of
the specification: four sections, each with its optional evidence sub-list,
then the always-present Unknowns section. -/
def evidenceDoc (fs : List (String × JSON)) : Str :=
  chars "# Plan (with evidence)\n"
    ++ chars "## Objective\n" ++ objTextSpec fs ++ chars "\n"
    ++ evidenceBlock (formatSpec (objEvidenceOf fs)) ++ chars "\n"
    ++ chars "## Hypothesis\n" ++ listTextSpec fs "hypothesis" ++ chars "\n"
    ++ evidenceBlock (evLinesSpec fs "hypothesis") ++ chars "\n"
    ++ chars "## Methodology\n" ++ listTextSpec fs "methodology" ++ chars "\n"
    ++ evidenceBlock (evLinesSpec fs "methodology") ++ chars "\n"
    ++ chars "## Experiments\n" ++ expSpecText fs true ++ chars "\n"
    ++ chars "\n## Unknowns\n" ++ unknownsBlock (unknownsOf fs)

theorem planSafe_parts (fs : List (String × JSON)) (h : planSafe fs = true) :
    evOkB (objEvidenceOf fs) = true
      ∧ (∀ it ∈ sectionItemsOf fs "hypothesis", itemEvOkB it = true)
      ∧ (∀ it ∈ sectionItemsOf fs "methodology", itemEvOkB it = true)
      ∧ (∀ it ∈ sectionItemsOf fs "experiments", itemEvOkB it = true) := by
  unfold planSafe at h
  simp only [Bool.and_eq_true, List.all_eq_true] at h
  exact ⟨h.1.1.1, h.1.1.2, h.1.2, h.2⟩

theorem render_plan_md_with_evidence_eq (fs : List (String × JSON))
    (h : planSafe fs = true) :
    render_plan_md_with_evidence (.obj fs) = .ok (evidenceDoc fs) := by
  obtain ⟨h1, h2, h3, h4⟩ := planSafe_parts fs h
  unfold render_plan_md_with_evidence
  rw [extract_objective_with_evidence_eq fs h1, bind_ok,
    extract_list_text_eq, bind_ok,
    extract_list_evidence_lines_eq fs "hypothesis" h2, bind_ok,
    extract_list_text_eq, bind_ok,
    extract_list_evidence_lines_eq fs "methodology" h3, bind_ok,
    extract_experiments_text_eq fs true h4, bind_ok,
    dictGetD_obj, bind_ok]
  rfl

/-! ## Substring machinery for the concise document -/

theorem prefix_nl_split {p xs ys : List Char} (hnl : '\n' ∉ p)
    (hp : p <+: xs ++ '\n' :: ys) : p <+: xs := by
  induction xs generalizing p with
  | nil =>
      cases p with
      | nil => exact List.nil_prefix
      | cons c cs =>
          rw [List.nil_append, List.cons_prefix_cons] at hp
          exact absurd hp.1 (by rintro rfl; exact hnl (by simp))
  | cons x xs ih =>
      cases p with
      | nil => exact List.nil_prefix
      | cons c cs =>
          rw [List.cons_append, List.cons_prefix_cons] at hp
          obtain ⟨rfl, htail⟩ := hp
          rw [List.cons_prefix_cons]
          exact ⟨rfl, ih (fun hm => hnl (by simp [hm])) htail⟩

theorem infix_nl_split {p xs ys : List Char} (hnl : '\n' ∉ p) (hne : p ≠ [])
    (hp : p <:+: xs ++ '\n' :: ys) : p <:+: xs ∨ p <:+: ys := by
  induction xs with
  | nil =>
      rw [List.nil_append, List.infix_cons_iff] at hp
      rcases hp with hp | hp
      · cases p with
        | nil => exact absurd rfl hne
        | cons c cs =>
            rw [List.cons_prefix_cons] at hp
            exact absurd hp.1 (by rintro rfl; exact hnl (by simp))
      · exact Or.inr hp
  | cons x xs ih =>
      rw [List.cons_append, List.infix_cons_iff] at hp
      rcases hp with hp | hp
      · cases p with
        | nil => exact absurd rfl hne
        | cons c cs =>
            rw [List.cons_prefix_cons] at hp
            obtain ⟨rfl, htail⟩ := hp
            have hcs : cs <+: xs :=
              prefix_nl_split (fun hm => hnl (by simp [hm])) htail
            exact Or.inl (List.cons_prefix_cons.mpr ⟨rfl, hcs⟩).isInfix
      · rcases ih hp with h | h
        · exact Or.inl (List.infix_cons h)
        · exact Or.inr h

/-- A newline-free pattern occurring in a newline-terminated segment
concatenation occurs in one of the segments. -/
theorem infix_nlJoin {p : List Char} (hnl : '\n' ∉ p) (hne : p ≠ []) :
    ∀ segs : List Str,
      p <:+: (segs.map (fun s => s ++ ['\n'])).flatten →
      ∃ s ∈ segs, p <:+: s := by
  intro segs
  induction segs with
  | nil =>
      intro hp
      simp only [List.map_nil, List.flatten_nil] at hp
      rcases hp with ⟨s, t, hst⟩
      have := List.append_eq_nil.mp (List.append_eq_nil.mp hst |>.1)
      exact absurd this.2 hne
  | cons seg rest ih =>
      intro hp
      simp only [List.map_cons, List.flatten_cons, List.append_assoc,
        List.singleton_append] at hp
      rcases infix_nl_split hnl hne hp with h | h
      · exact ⟨seg, by simp, h⟩
      · obtain ⟨s, hs, hps⟩ := ih h
        exact ⟨s, by simp [hs], hps⟩

/-! ## Claim theorems -/

/-- C9: `normalize_unknown` maps `None` to `"Unknown"`; a string is trimmed
and maps to `"Unknown"` when empty or case-insensitively in the synonym set
{unknown, n/a, na, not specified, not stated}, otherwise to the trimmed
string verbatim; any other value maps to its `str` representation, never
raising.  In particular the five example equations of the specification
hold. -/
theorem c9_normalize_unknown :
    normalize_unknown .null = chars "Unknown"
    ∧ normalize_unknown (.str (chars "  ")) = chars "Unknown"
    ∧ normalize_unknown (.str (chars "N/A")) = chars "Unknown"
    ∧ normalize_unknown (.str (chars "Causal tracing")) = chars "Causal tracing"
    ∧ normalize_unknown (.num 3) = chars "3"
    ∧ (∀ s : Str, normalize_unknown (.str s)
        = if pyStrip s = [] ∨ pyLower (pyStrip s) ∈ unknownSynonyms
          then chars "Unknown" else pyStrip s)
    ∧ (∀ v : JSON, v ≠ .null → (∀ s, v ≠ .str s) →
        normalize_unknown v = pyStr v) := by
  refine ⟨rfl, rfl, rfl, rfl, rfl, ?_, ?_⟩
  · intro s
    unfold normalize_unknown
    by_cases h1 : pyStrip s = []
    · simp [h1]
    · by_cases h2 : pyLower (pyStrip s) ∈ unknownSynonyms
      · simp [h1, h2]
      · simp [h1, h2]
  · intro v hnull hstr
    cases v with
    | null => exact absurd rfl hnull
    | str s => exact absurd rfl (hstr s)
    | bool b => rfl
    | num n => rfl
    | arr xs => rfl
    | obj fields => rfl

/-- C9 witness: the characterization applied at concrete non-string,
non-null inputs. -/
theorem c9_normalize_unknown_witness :
    normalize_unknown (.bool true) = pyStr (.bool true)
      ∧ normalize_unknown (.str (chars " x ")) = chars "x" := by
  constructor
  · exact c9_normalize_unknown.2.2.2.2.2.2 (.bool true)
      (by intro h; cases h) (by intro s h; cases h)
  · rw [c9_normalize_unknown.2.2.2.2.2.1 (chars " x ")]
    decide

/-- C1 (code bug): the extractors are NOT total.  `plan.get` raises
`AttributeError` on a non-mapping top-level value, and `normalize_quote`
raises `AttributeError` on a truthy non-string quote such as the integer 5
or a nonempty list (`(q or "")` keeps the truthy value, so `.strip()` is
called on a non-string).  This theorem evaluates the embedded code at the
failing inputs. -/
theorem c1_totality_failures :
    extract_objective_text (.arr []) = .error .attributeError
    ∧ extract_objective_with_evidence (.num 0) = .error .attributeError
    ∧ extract_list_text (.str (chars "x")) "hypothesis"
        = .error .attributeError
    ∧ extract_list_evidence_lines (.arr []) "methodology"
        = .error .attributeError
    ∧ extract_experiments_text (.arr []) true = .error .attributeError
    ∧ format_evidence_list
        (.arr [.obj [("page", .num 1), ("quote", .num 5)]])
        = .error .attributeError
    ∧ format_evidence_list
        (.arr [.obj [("quote", .arr [.str (chars "q")])]])
        = .error .attributeError
    ∧ extract_objective_with_evidence
        (.obj [("objective", .obj [("text", .str (chars "t")),
          ("evidence", .arr [.obj [("quote", .num 5)]])])])
        = .error .attributeError := by
  exact ⟨rfl, rfl, rfl, rfl, rfl, rfl, rfl, rfl⟩

/-- The Plan of the specification's list-extractor renumbering test: item
texts normalize to [Unknown, "A", Unknown, "B"]. -/
def c2plan : JSON :=
  .obj [("hypothesis", .obj [("items", .arr
    [.obj [("text", .str (chars "unknown"))],
     .obj [("text", .str (chars "A"))],
     .obj [("text", .null)],
     .obj [("text", .str (chars "B"))]])])]

/-- C2: for a Plan mapping and a hypothesis/methodology key,
`extract_list_text` numbers exactly the surviving item texts (dict items
whose normalized text is not `"Unknown"`), 1-indexed and contiguous in
input order, and returns `"Unknown"` when none survive; on the
[Unknown, "A", Unknown, "B"] example the result is exactly
`"1. A\n2. B"`. -/
theorem c2_extract_list_text :
    (∀ (fs : List (String × JSON)) (key : String),
        key = "hypothesis" ∨ key = "methodology" →
        extract_list_text (.obj fs) key
          = .ok (if listItemTexts (sectionItemsOf fs key) = []
                 then chars "Unknown"
                 else numberedList (listItemTexts (sectionItemsOf fs key))))
    ∧ extract_list_text c2plan "hypothesis" = .ok (chars "1. A\n2. B") := by
  constructor
  · intro fs key _
    exact extract_list_text_eq fs key
  · rfl

/-- C2 witness: the characterization applied to the renumbering example. -/
theorem c2_extract_list_text_witness :
    extract_list_text (.obj [("hypothesis", .obj [("items", .arr
        [.obj [("text", .str (chars "unknown"))],
         .obj [("text", .str (chars "A"))],
         .obj [("text", .null)],
         .obj [("text", .str (chars "B"))]])])]) "hypothesis"
      = .ok (if listItemTexts (sectionItemsOf
              [("hypothesis", .obj [("items", .arr
                [.obj [("text", .str (chars "unknown"))],
                 .obj [("text", .str (chars "A"))],
                 .obj [("text", .null)],
                 .obj [("text", .str (chars "B"))]])])] "hypothesis") = []
             then chars "Unknown"
             else numberedList (listItemTexts (sectionItemsOf
              [("hypothesis", .obj [("items", .arr
                [.obj [("text", .str (chars "unknown"))],
                 .obj [("text", .str (chars "A"))],
                 .obj [("text", .null)],
                 .obj [("text", .str (chars "B"))]])])] "hypothesis"))) :=
  c2_extract_list_text.1 _ "hypothesis" (Or.inl rfl)

/-- A 50-word quote (the truncation test input of the specification). -/
def fiftyWordQuote : Str := (List.replicate 50 (chars "w ")).flatten

/-- C3: the evidence formatter returns `[]` on non-list input; on a list it
keeps, in input order and without deduplication, exactly the mapping
entries whose quote — whitespace-collapsed and trimmed — is non-empty,
rendering `(p.<page>) "<quote>"` for an integer page and `(p.?) "<quote>"`
otherwise, with quotes of more than 40 words cut to their first 40 words
plus `"..."`; a 50-word quote is so truncated, and duplicate entries yield
duplicate lines. -/
theorem c3_format_evidence_list :
    (∀ ev : JSON, (∀ items, ev ≠ .arr items) → format_evidence_list ev = .ok [])
    ∧ (∀ items : List JSON, evOkB (.arr items) = true →
        format_evidence_list (.arr items) = .ok (items.filterMap entryLineSpec))
    ∧ format_evidence_list
        (.arr [.obj [("page", .num 7), ("quote", .str fiftyWordQuote)]])
        = .ok [chars "(p.7) \""
            ++ (List.intercalate (chars " ") (List.replicate 40 (chars "w"))
                ++ chars "...")
            ++ chars "\""]
    ∧ format_evidence_list
        (.arr [.obj [("quote", .str (chars "no page"))],
               .obj [("quote", .str (chars "no page"))]])
        = .ok [chars "(p.?) \"no page\"", chars "(p.?) \"no page\""] := by
  refine ⟨?_, ?_, rfl, rfl⟩
  · intro ev h
    cases ev with
    | arr items => exact absurd rfl (h items)
    | null => rfl
    | bool b => rfl
    | num n => rfl
    | str s => rfl
    | obj fields => rfl
  · intro items h
    exact format_evidence_list_ok (.arr items) h

/-- C3 witness: the formatter characterization applied at concrete inputs. -/
theorem c3_format_evidence_list_witness :
    format_evidence_list (.num 3) = .ok []
      ∧ format_evidence_list (.arr [.num 1,
          .obj [("page", .num 2), ("quote", .str (chars "  a  b "))]])
        = .ok ([.num 1, .obj [("page", .num 2),
            ("quote", .str (chars "  a  b "))]].filterMap entryLineSpec) := by
  constructor
  · exact c3_format_evidence_list.1 (.num 3) (by intro items h; cases h)
  · exact c3_format_evidence_list.2.1 _ (by decide)

theorem length_filterMap_eq_countP {α β : Type} (f : α → Option β)
    (l : List α) :
    (l.filterMap f).length = l.countP (fun a => (f a).isSome) := by
  induction l with
  | nil => rfl
  | cons a l ih =>
      cases hfa : f a <;>
        simp [List.filterMap_cons, hfa, List.countP_cons, ih]

/-- C4: for a Plan mapping and a hypothesis/methodology key, the evidence
lines are, per item, exactly the first 2 of its formatted evidence lines,
concatenated in input order; every returned line comes verbatim from the
evidence formatter (the internal `H<i>`/`HM<i>` annotation is fully
stripped); and the experiment blocks likewise use only the first 2
formatted evidence lines. -/
theorem c4_evidence_caps :
    (∀ (fs : List (String × JSON)) (key : String),
        key = "hypothesis" ∨ key = "methodology" →
        (∀ it ∈ sectionItemsOf fs key, itemEvOkB it = true) →
        extract_list_evidence_lines (.obj fs) key
          = .ok (((sectionItemsOf fs key).map
              (fun it => (formatSpec (itemEvidenceOf it)).take 2)).flatten))
    ∧ (∀ (items : List JSON) (line : Str), line ∈ evLinesSpecItems items →
        ∃ it ∈ items, line ∈ formatSpec (itemEvidenceOf it))
    ∧ (∀ items : List JSON, ∀ it ∈ items,
        ((formatSpec (itemEvidenceOf it)).take 2).length ≤ 2)
    ∧ (∀ (name what_varied metric main_result : Str) (evLines : List Str)
        (include_evidence : Bool),
        expBlock name what_varied metric main_result evLines include_evidence
          = expBlock name what_varied metric main_result (evLines.take 2)
              include_evidence)
    ∧ (∀ (raw : List JSON) (include_evidence : Bool),
        (∀ it ∈ raw, itemEvOkB it = true) →
        experimentsLoop include_evidence raw
          = .ok (expSurviving raw include_evidence)) := by
  refine ⟨?_, ?_, ?_, ?_, ?_⟩
  · intro fs key _ hsafe
    exact extract_list_evidence_lines_eq fs key hsafe
  · intro items line hline
    unfold evLinesSpecItems at hline
    rw [List.mem_flatten] at hline
    obtain ⟨l, hl, hline⟩ := hline
    rw [List.mem_map] at hl
    obtain ⟨it, hit, rfl⟩ := hl
    exact ⟨it, hit, List.take_subset _ _ hline⟩
  · intro items it _
    simpa using List.length_take_le 2 (formatSpec (itemEvidenceOf it))
  · intro name what_varied metric main_result evLines include_evidence
    by_cases hev : evLines = []
    · subst hev; rfl
    · unfold expBlock
      rw [List.take_take]
      by_cases hev2 : evLines.take 2 = []
      · exfalso
        rcases List.take_eq_nil_iff.mp hev2 with h | h <;> simp_all
      · simp [hev, hev2]
  · intro raw include_evidence hsafe
    exact experimentsLoop_ok include_evidence raw hsafe

/-- A hypothesis section whose single item carries three evidence
entries. -/
def c4fs : List (String × JSON) :=
  [("hypothesis", .obj [("items", .arr
    [.obj [("text", .str (chars "H1")), ("evidence", .arr
      [.obj [("page", .num 1), ("quote", .str (chars "a"))],
       .obj [("page", .num 2), ("quote", .str (chars "b"))],
       .obj [("page", .num 3), ("quote", .str (chars "c"))]])]])])]

/-- C4 witness: three formatted evidence entries on one hypothesis item
yield exactly the first two citation lines, unannotated. -/
theorem c4_evidence_caps_witness :
    extract_list_evidence_lines (.obj c4fs) "hypothesis"
      = .ok (((sectionItemsOf c4fs "hypothesis").map
          (fun it => (formatSpec (itemEvidenceOf it)).take 2)).flatten) :=
  c4_evidence_caps.1 c4fs "hypothesis" (Or.inl rfl) (by decide)

/-- An experiments Plan whose only item has a name and a metric but no
`main_result`. -/
def expPlanNamed : JSON :=
  .obj [("experiments", .obj [("items", .arr
    [.obj [("name", .str (chars "E")), ("metric", .str (chars "m"))]])])]

/-- An experiments Plan whose only item has no resolvable name. -/
def expPlanNameless : JSON :=
  .obj [("experiments", .obj [("items", .arr
    [.obj [("name", .str (chars " n/a ")),
      ("metric", .str (chars "m"))]])])]

/-- C5: the experiments extractor drops items whose name normalizes to
`"Unknown"`, renders each survivor as a `### name` block with the three
independently normalized field lines (absent `main_result` renders
`- Main result: Unknown`), and returns exactly `"Unknown"` when the section
is not a mapping, `items` is not a non-empty list, or no item survives. -/
theorem c5_experiments :
    (∀ (fs : List (String × JSON)) (include_evidence : Bool),
        (∀ it ∈ sectionItemsOf fs "experiments", itemEvOkB it = true) →
        extract_experiments_text (.obj fs) include_evidence
          = .ok (expSpecText fs include_evidence))
    ∧ extract_experiments_text expPlanNamed true
        = .ok (chars "### E\n- What varied: Unknown\n- Metric: m\n- Main result: Unknown")
    ∧ extract_experiments_text expPlanNameless true = .ok (chars "Unknown")
    ∧ extract_experiments_text (.obj [("experiments", .num 3)]) true
        = .ok (chars "Unknown")
    ∧ extract_experiments_text
        (.obj [("experiments", .obj [("items", .arr [])])]) false
        = .ok (chars "Unknown")
    ∧ extract_experiments_text
        (.obj [("experiments", .obj [("items", .str (chars "xs"))])]) false
        = .ok (chars "Unknown") := by
  refine ⟨?_, rfl, rfl, rfl, rfl, rfl⟩
  intro fs include_evidence hsafe
  exact extract_experiments_text_eq fs include_evidence hsafe

/-- C5 witness: the characterization applied at a concrete Plan. -/
theorem c5_experiments_witness :
    extract_experiments_text (.obj [("experiments", .obj [("items", .arr
        [.obj [("name", .str (chars "E")), ("metric", .str (chars "m"))]])])])
        true
      = .ok (expSpecText [("experiments", .obj [("items", .arr
          [.obj [("name", .str (chars "E")),
            ("metric", .str (chars "m"))]])])] true) :=
  c5_experiments.1 _ true (by decide)

/-- The objective fields of the uncapped-evidence test Plan: three
formatted evidence entries. -/
def c10fs : List (String × JSON) :=
  [("objective", .obj [("text", .str (chars "T")), ("evidence", .arr
      [.obj [("page", .num 1), ("quote", .str (chars "q1"))],
       .obj [("page", .num 2), ("quote", .str (chars "q2"))],
       .obj [("page", .num 3), ("quote", .str (chars "q3"))]])]),
   ("hypothesis", .obj [("items", .arr
      [.obj [("text", .str (chars "H")), ("evidence", .arr
        [.obj [("page", .num 1), ("quote", .str (chars "q1"))],
         .obj [("page", .num 2), ("quote", .str (chars "q2"))],
         .obj [("page", .num 3), ("quote", .str (chars "q3"))]])]])])]

set_option maxRecDepth 10000 in
/-- C10: the objective's evidence is never count-capped — the extractor
returns every formatted line of `objective.evidence` (its length is the
number of surviving entries, whatever it is), and the evidence document
renders them all; the same three entries on a hypothesis item surface only
2 lines. -/
theorem c10_objective_evidence_uncapped :
    (∀ fs : List (String × JSON), evOkB (objEvidenceOf fs) = true →
        extract_objective_with_evidence (.obj fs)
          = .ok (objTextSpec fs, formatSpec (objEvidenceOf fs)))
    ∧ (∀ items : List JSON, (formatSpec (.arr items)).length
        = items.countP (fun it => (entryLineSpec it).isSome))
    ∧ extract_objective_with_evidence (.obj c10fs)
        = .ok (chars "T",
            [chars "(p.1) \"q1\"", chars "(p.2) \"q2\"", chars "(p.3) \"q3\""])
    ∧ extract_list_evidence_lines (.obj c10fs) "hypothesis"
        = .ok [chars "(p.1) \"q1\"", chars "(p.2) \"q2\""]
    ∧ chars "- (p.3) \"q3\"" <:+: evidenceDoc c10fs
    ∧ render_plan_md_with_evidence (.obj c10fs) = .ok (evidenceDoc c10fs) := by
  refine ⟨?_, ?_, rfl, rfl, by decide, ?_⟩
  · intro fs h
    exact extract_objective_with_evidence_eq fs h
  · intro items
    unfold formatSpec
    exact length_filterMap_eq_countP entryLineSpec items
  · exact render_plan_md_with_evidence_eq c10fs (by decide)

/-- C10 witness: the uncapped equality applied at the three-entry Plan. -/
theorem c10_objective_evidence_uncapped_witness :
    extract_objective_with_evidence (.obj c10fs)
      = .ok (objTextSpec c10fs, formatSpec (objEvidenceOf c10fs)) :=
  c10_objective_evidence_uncapped.1 c10fs (by decide)

theorem bind_error {ε α β : Type} (e : ε) (f : α → Except ε β) :
    (Except.error e >>= f : Except ε β) = .error e := rfl

/-- C7: whenever the evidence renderer returns a document, that document
ends with a `## Unknowns` section rendering `unknownsBlock (unknownsOf fs)`:
for an empty (or non-list) `unknowns` value that block is exactly the
placeholder line `- (none)`, and for a non-empty list it lists every entry
after independent normalization (entries normalizing to `"Unknown"` are
still listed, not dropped). -/
theorem c7_unknowns_section (fs : List (String × JSON)) (doc : Str)
    (h : render_plan_md_with_evidence (.obj fs) = .ok doc) :
    (∃ pre, doc = pre ++ chars "\n## Unknowns\n"
        ++ unknownsBlock (unknownsOf fs))
    ∧ (unknownsOf fs = [] →
        unknownsBlock (unknownsOf fs) = chars "- (none)\n")
    ∧ (unknownsOf fs ≠ [] →
        unknownsBlock (unknownsOf fs)
          = ((unknownsOf fs).map
              (fun u => chars "- " ++ normalize_unknown u ++ chars "\n")).flatten) := by
  refine ⟨?_, ?_, ?_⟩
  · unfold render_plan_md_with_evidence at h
    cases h1 : extract_objective_with_evidence (.obj fs) with
    | error e => rw [h1, bind_error] at h; exact Except.noConfusion h
    | ok objPair =>
    rw [h1, bind_ok] at h
    cases h2 : extract_list_text (.obj fs) "hypothesis" with
    | error e => rw [h2, bind_error] at h; exact Except.noConfusion h
    | ok hyp =>
    rw [h2, bind_ok] at h
    cases h3 : extract_list_evidence_lines (.obj fs) "hypothesis" with
    | error e => rw [h3, bind_error] at h; exact Except.noConfusion h
    | ok hypEv =>
    rw [h3, bind_ok] at h
    cases h4 : extract_list_text (.obj fs) "methodology" with
    | error e => rw [h4, bind_error] at h; exact Except.noConfusion h
    | ok meth =>
    rw [h4, bind_ok] at h
    cases h5 : extract_list_evidence_lines (.obj fs) "methodology" with
    | error e => rw [h5, bind_error] at h; exact Except.noConfusion h
    | ok methEv =>
    rw [h5, bind_ok] at h
    cases h6 : extract_experiments_text (.obj fs) true with
    | error e => rw [h6, bind_error] at h; exact Except.noConfusion h
    | ok exps =>
    rw [h6, bind_ok, dictGetD_obj, bind_ok] at h
    rw [pure_eq_ok] at h
    injection h with h
    exact ⟨_, h.symm⟩
  · intro h0
    rw [h0]
    rfl
  · intro h0
    cases hu : unknownsOf fs with
    | nil => exact absurd hu h0
    | cons a as => rfl

/-- A Plan whose `unknowns` list has a real entry and an entry that
normalizes to `"Unknown"`. -/
def c7fs : List (String × JSON) :=
  [("unknowns", .arr [.str (chars "scaling"), .str (chars "  ")])]

/-- The document the evidence renderer produces for `c7fs`. -/
def c7doc : Str :=
  (render_plan_md_with_evidence (.obj c7fs)).toOption.getD []

set_option maxRecDepth 10000 in
/-- C7 witness: the Unknowns-section theorem applied at a concrete Plan. -/
theorem c7_unknowns_section_witness :
    ∃ pre, c7doc = pre ++ chars "\n## Unknowns\n"
        ++ unknownsBlock (unknownsOf c7fs) :=
  (c7_unknowns_section c7fs c7doc rfl).1

/-- A Plan whose objective text itself contains the words "Evidence" and
"Unknowns". -/
def c6fs : List (String × JSON) :=
  [("objective", .obj [("text",
    .str (chars "Survey the Evidence about Unknowns in models"))])]

/-- The document the concise renderer produces for `c6fs`. -/
def c6doc : Str := (render_plan_md_concise (.obj c6fs)).toOption.getD []

set_option maxRecDepth 10000 in
/-- C6 counterexample: the concise renderer copies section texts verbatim,
so a Plan whose objective text contains "Evidence" and "Unknowns" yields a
concise document containing both substrings — refuting the claim that the
concise document never contains them. -/
theorem c6_counterexample :
    render_plan_md_concise (.obj c6fs) = .ok c6doc
      ∧ chars "Evidence" <:+: c6doc
      ∧ chars "Unknowns" <:+: c6doc :=
  ⟨rfl, by decide, by decide⟩

/-- C6 (amended): the concise renderer emits exactly the four headed
sections with the extracted texts, and itself contributes neither
"Evidence" nor "Unknowns": whenever none of the four extracted section
texts contains the substring, neither does the document. -/
theorem c6_concise_no_evidence_heading (fs : List (String × JSON))
    (hsafe : ∀ it ∈ sectionItemsOf fs "experiments", itemEvOkB it = true)
    (hclean : ∀ t ∈ [objTextSpec fs, listTextSpec fs "hypothesis",
        listTextSpec fs "methodology", expSpecText fs false],
      ¬ chars "Evidence" <:+: t ∧ ¬ chars "Unknowns" <:+: t) :
    render_plan_md_concise (.obj fs)
      = .ok (conciseDoc (objTextSpec fs) (listTextSpec fs "hypothesis")
          (listTextSpec fs "methodology") (expSpecText fs false))
    ∧ ¬ chars "Evidence" <:+: conciseDoc (objTextSpec fs)
        (listTextSpec fs "hypothesis") (listTextSpec fs "methodology")
        (expSpecText fs false)
    ∧ ¬ chars "Unknowns" <:+: conciseDoc (objTextSpec fs)
        (listTextSpec fs "hypothesis") (listTextSpec fs "methodology")
        (expSpecText fs false) := by
  refine ⟨render_plan_md_concise_eq fs hsafe, ?_, ?_⟩
  · intro hin
    obtain ⟨s, hs, hps⟩ := infix_nlJoin (by decide) (by decide) _ hin
    simp only [conciseSegs, List.mem_cons, List.not_mem_nil, or_false] at hs
    rcases hs with rfl | rfl | rfl | rfl | rfl | rfl | rfl | rfl | rfl
      | rfl | rfl | rfl
    · exact absurd hps (by decide)
    · exact absurd hps (by decide)
    · exact absurd hps (hclean _ (by simp)).1
    · exact absurd hps (by decide)
    · exact absurd hps (by decide)
    · exact absurd hps (hclean _ (by simp)).1
    · exact absurd hps (by decide)
    · exact absurd hps (by decide)
    · exact absurd hps (hclean _ (by simp)).1
    · exact absurd hps (by decide)
    · exact absurd hps (by decide)
    · exact absurd hps (hclean _ (by simp)).1
  · intro hin
    obtain ⟨s, hs, hps⟩ := infix_nlJoin (by decide) (by decide) _ hin
    simp only [conciseSegs, List.mem_cons, List.not_mem_nil, or_false] at hs
    rcases hs with rfl | rfl | rfl | rfl | rfl | rfl | rfl | rfl | rfl
      | rfl | rfl | rfl
    · exact absurd hps (by decide)
    · exact absurd hps (by decide)
    · exact absurd hps (hclean _ (by simp)).2
    · exact absurd hps (by decide)
    · exact absurd hps (by decide)
    · exact absurd hps (hclean _ (by simp)).2
    · exact absurd hps (by decide)
    · exact absurd hps (by decide)
    · exact absurd hps (hclean _ (by simp)).2
    · exact absurd hps (by decide)
    · exact absurd hps (by decide)
    · exact absurd hps (hclean _ (by simp)).2

set_option maxRecDepth 10000 in
/-- C6 witness: the amended theorem applied at the empty Plan (all four
sections extract to `"Unknown"`). -/
theorem c6_concise_no_evidence_heading_witness :
    render_plan_md_concise (.obj [])
      = .ok (conciseDoc (objTextSpec []) (listTextSpec [] "hypothesis")
          (listTextSpec [] "methodology") (expSpecText [] false))
    ∧ ¬ chars "Evidence" <:+: conciseDoc (objTextSpec [])
        (listTextSpec [] "hypothesis") (listTextSpec [] "methodology")
        (expSpecText [] false)
    ∧ ¬ chars "Unknowns" <:+: conciseDoc (objTextSpec [])
        (listTextSpec [] "hypothesis") (listTextSpec [] "methodology")
        (expSpecText [] false) :=
  c6_concise_no_evidence_heading [] (by simp [sectionItemsOf, lookupD])
    (by decide)

theorem renderAndWrite_shape (plan : JSON) :
    (∃ e, renderAndWrite plan = .error e)
      ∨ ∃ a b, renderAndWrite plan
          = .ok [("plan.md", a), ("plan_with_evidence.md", b)] := by
  unfold renderAndWrite
  cases render_plan_md_concise plan with
  | error e => exact Or.inl ⟨.renderError e, rfl⟩
  | ok a =>
      cases render_plan_md_with_evidence plan with
      | error e => exact Or.inl ⟨.renderError e, rfl⟩
      | ok b => exact Or.inr ⟨a, b, rfl⟩

/-- C8: the orchestrator invokes the generator at most twice; whenever the
first response fails strict JSON parsing, exactly one repair invocation is
made, and a second parse failure ends the run with the fatal
`parseFailed` outcome; and the run's outcome is either a fatal error with
no file written, or exactly the two files `plan.md` and
`plan_with_evidence.md` (both rendered before either is written). -/
theorem c8_orchestrator (fe : Bool) (r1 r2 : Except Unit Str)
    (jl : Str → Option JSON) :
    (mainModel fe r1 r2 jl).1 ≤ 2
    ∧ ((∃ e, (mainModel fe r1 r2 jl).2 = .error e)
        ∨ ∃ a b, (mainModel fe r1 r2 jl).2
            = .ok [("plan.md", a), ("plan_with_evidence.md", b)])
    ∧ (∀ out1, fe = true → r1 = .ok out1 →
        parse_json_strict jl out1 = none →
          (mainModel fe r1 r2 jl).1 = 2
          ∧ (∀ out2, r2 = .ok out2 → parse_json_strict jl out2 = none →
              (mainModel fe r1 r2 jl).2 = .error .parseFailed)) := by
  cases fe with
  | false =>
      refine ⟨by simp [mainModel], Or.inl ⟨.missingInput, by simp [mainModel]⟩, ?_⟩
      intro out1 hfe
      exact absurd hfe (by simp)
  | true =>
      cases r1 with
      | error u =>
          refine ⟨by simp [mainModel], Or.inl ⟨.claudeFailed, by simp [mainModel]⟩, ?_⟩
          intro out1 _ hr1
          exact Except.noConfusion hr1
      | ok out1 =>
          cases hp1 : parse_json_strict jl out1 with
          | some plan =>
              refine ⟨by simp [mainModel, hp1], ?_, ?_⟩
              · have := renderAndWrite_shape plan
                simpa [mainModel, hp1] using this
              · intro out1' _ hr1 hp1'
                injection hr1 with hr1
                subst hr1
                exact absurd hp1' (by simp [hp1])
          | none =>
              cases r2 with
              | error u =>
                  refine ⟨by simp [mainModel, hp1],
                    Or.inl ⟨.claudeFailed, by simp [mainModel, hp1]⟩, ?_⟩
                  intro out1' _ hr1 hp1'
                  refine ⟨by simp [mainModel, hp1], ?_⟩
                  intro out2 hr2
                  exact absurd hr2 (by simp)
              | ok out2 =>
                  cases hp2 : parse_json_strict jl out2 with
                  | some plan =>
                      refine ⟨by simp [mainModel, hp1, hp2], ?_, ?_⟩
                      · have := renderAndWrite_shape plan
                        simpa [mainModel, hp1, hp2] using this
                      · intro out1' _ hr1 hp1'
                        refine ⟨by simp [mainModel, hp1, hp2], ?_⟩
                        intro out2' hr2 hp2'
                        injection hr2 with hr2
                        subst hr2
                        exact absurd hp2' (by simp [hp2])
                  | none =>
                      refine ⟨by simp [mainModel, hp1, hp2],
                        Or.inl ⟨.parseFailed, by simp [mainModel, hp1, hp2]⟩, ?_⟩
                      intro out1' _ hr1 hp1'
                      exact ⟨by simp [mainModel, hp1, hp2],
                        fun out2' hr2 hp2' => by simp [mainModel, hp1, hp2]⟩

/-- C8 witness: with an unparseable first response, exactly one repair
invocation is made and its parse failure is the fatal outcome. -/
theorem c8_orchestrator_witness :
    (mainModel true (.ok (chars "x")) (.ok (chars "y"))
        (fun _ => none)).1 = 2
    ∧ (mainModel true (.ok (chars "x")) (.ok (chars "y"))
        (fun _ => none)).2 = .error .parseFailed := by
  have h := (c8_orchestrator true (.ok (chars "x")) (.ok (chars "y"))
      (fun _ => none)).2.2 (chars "x") rfl rfl rfl
  exact ⟨h.1, h.2 (chars "y") rfl rfl⟩

end GenPlan


